import Mathlib

/-
Verification development for the keramik-pos repository.

The repository source (src/app/models.py) contains only the persistent
entity declarations and request schemas of a retail inventory-and-sales
application.  The behavioural core (Sale Poster, Stock Ledger, Adjustment
Recorder) is described in the spec but absent from the source, so those
operations are modelled from the spec here; the schemas themselves
(field types, defaults, length and sign constraints) are embedded from
the source.

Conventions of the embedding:
- Money fields declared `Decimal(decimal_places=2)` in the source are
  represented as integers counting cents (exact fixed point).
- Percentage fields declared `Decimal(decimal_places=2)` are represented
  as integers counting hundredths of a percent (so 10.00 percent is 1000).
- The spec (section 9) fixes round-half-up to 2 decimal places as the
  rounding mode for every percentage step.
-/

namespace KeramikPos

/-- PaymentMethod enum from src/app/models.py lines 9-11. -/
inductive PaymentMethod where
  | cash
  | bank_transfer
deriving Repr, DecidableEq

/-- StockAdjustmentType enum from src/app/models.py lines 14-17. -/
inductive StockAdjustmentType where
  | increase
  | decrease
  | correction
deriving Repr, DecidableEq

/-- Error taxonomy from the spec, section 7. -/
inductive PosError where
  | NotFound
  | InvalidQuantity
  | InvalidPrice
  | InsufficientStock
  | ConflictError
deriving Repr, DecidableEq

/-- Customer row (src/app/models.py lines 36-47); only the identity is
relevant to the claims. -/
structure Customer where
  id : Int
deriving Repr, DecidableEq

/-- Product row (src/app/models.py lines 77-94); fields relevant to the
claims.  Prices are cents; the source declares them
`Decimal(decimal_places=2)` with no sign constraint. -/
structure Product where
  id : Int
  name : String
  sku : String
  purchase_price : Int := 0
  selling_price : Int := 0
  unit : String := "pcs"
  is_active : Bool := true
deriving Repr, DecidableEq

/-- Warehouse row (src/app/models.py lines 50-62). -/
structure Warehouse where
  id : Int
  is_active : Bool := true
deriving Repr, DecidableEq

/-- Stock row (src/app/models.py lines 97-110): per (product, warehouse)
quantity record. -/
structure Stock where
  id : Int
  product_id : Int
  warehouse_id : Int
  quantity : Int := 0
  minimum_stock : Int := 0
deriving Repr, DecidableEq

/-- StockAdjustment row (src/app/models.py lines 158-175): immutable
audit record of one stock mutation. -/
structure StockAdjustment where
  stock_id : Int
  user_id : Int
  adjustment_type : StockAdjustmentType
  quantity_change : Int
  previous_quantity : Int
  new_quantity : Int
  reason : String
deriving Repr, DecidableEq

/-- Sale header row (src/app/models.py lines 113-135).  Defaults embed
the source's column defaults: money fields default to 0,
payment_method defaults to cash, payment_status defaults to the plain
string "completed". -/
structure Sale where
  transaction_number : String
  customer_id : Int
  user_id : Int
  subtotal : Int := 0
  discount_percentage : Int := 0
  discount_amount : Int := 0
  tax_percentage : Int := 0
  tax_amount : Int := 0
  total_amount : Int := 0
  payment_method : PaymentMethod := PaymentMethod.cash
  payment_status : String := "completed"
  notes : Option String := none
deriving Repr, DecidableEq

/-- SaleItem row (src/app/models.py lines 138-155): one line of a sale. -/
structure SaleItem where
  sale_id : Int
  product_id : Int
  warehouse_id : Int
  quantity : Int
  unit_price : Int
  discount_percentage : Int := 0
  discount_amount : Int := 0
  total_amount : Int := 0
deriving Repr, DecidableEq

/-- ProductCreate request schema (src/app/models.py lines 193-201).
The source constrains string lengths and declares the two prices as
`Decimal(decimal_places=2)` with no sign bound. -/
structure ProductCreate where
  name : String
  description : Option String := none
  sku : String
  category_id : Option Int := none
  purchase_price : Int
  selling_price : Int
  unit : String := "pcs"
deriving Repr, DecidableEq

/-- Validation carried by the ProductCreate schema, embedded from the
field declarations in src/app/models.py lines 193-201: only maximum
string lengths are enforced; no field carries a sign constraint. -/
def productCreateValid (p : ProductCreate) : Bool :=
  p.name.length ≤ 200 &&
  (match p.description with
   | none => true
   | some d => d.length ≤ 1000) &&
  p.sku.length ≤ 50 &&
  p.unit.length ≤ 20

/-- SaleItemCreate request schema (src/app/models.py lines 257-262):
quantity and unit_price are declared with `gt=0`. -/
structure SaleItemCreate where
  product_id : Int
  warehouse_id : Int
  quantity : Int
  unit_price : Int
  discount_percentage : Int := 0
deriving Repr, DecidableEq

/-- SaleCreate request schema (src/app/models.py lines 265-271). -/
structure SaleCreate where
  customer_id : Int
  items : List SaleItemCreate
  discount_percentage : Int := 0
  tax_percentage : Int := 0
  payment_method : PaymentMethod := PaymentMethod.cash
  notes : Option String := none
deriving Repr, DecidableEq

/-- Validation carried by the persisted Sale schema's string columns
(src/app/models.py lines 117 and 128): transaction_number and
payment_status are strings of at most 20 characters; payment_status has
no other constraint. -/
def saleStringsValid (s : Sale) : Bool :=
  s.transaction_number.length ≤ 20 && s.payment_status.length ≤ 20

/-- Whole-database state over which the spec's operations act. -/
structure State where
  customers : List Customer
  products : List Product
  warehouses : List Warehouse
  stocks : List Stock
  sales : List Sale
  sale_items : List SaleItem
  adjustments : List StockAdjustment
deriving Repr, DecidableEq

/-- Round-half-up to whole cents of a value given in units of
cents divided by 10000 (as arises when a cent amount is multiplied by a
percentage stored in hundredths of a percent).  Spec section 9:
round-half-up to 2 places at every percentage step. -/
def roundHalfUp2 (n : Int) : Int :=
  Int.fdiv (n + 5000) 10000

/-- Modelled from the spec: line discount of one sale item, section 4.2
step 2: `round(quantity * unit_price * discount_percentage / 100, 2)`. -/
def lineDiscount (it : SaleItemCreate) : Int :=
  roundHalfUp2 (it.quantity * it.unit_price * it.discount_percentage)

/-- Modelled from the spec: line total of one sale item, section 4.2
step 2: `quantity * unit_price - line_discount_amount`. -/
def lineTotal (it : SaleItemCreate) : Int :=
  it.quantity * it.unit_price - lineDiscount it

/-- Sum of line totals over the request items (spec section 4.2 step 3). -/
def subtotalOf (items : List SaleItemCreate) : Int :=
  items.foldr (fun it acc => lineTotal it + acc) 0

def findCustomer (s : State) (cid : Int) : Option Customer :=
  s.customers.find? (fun c => c.id == cid)

def findProduct (s : State) (pid : Int) : Option Product :=
  s.products.find? (fun p => p.id == pid)

def findWarehouse (s : State) (wid : Int) : Option Warehouse :=
  s.warehouses.find? (fun w => w.id == wid)

/-- The unique stock row of a (product, warehouse) pair, when present. -/
def findStockPair (stocks : List Stock) (pid wid : Int) : Option Stock :=
  stocks.find? (fun st => st.product_id == pid && st.warehouse_id == wid)

/-- Quantity available for a (product, warehouse) pair; 0 when no stock
row exists. -/
def availableQty (stocks : List Stock) (pid wid : Int) : Int :=
  match findStockPair stocks pid wid with
  | none => 0
  | some st => st.quantity

/-- Modelled from the spec: catalog validation of one item, section 4.2
step 1: the item must reference an existing, active Product and
Warehouse. -/
def catalogOk (s : State) (it : SaleItemCreate) : Bool :=
  (match findProduct s it.product_id with
   | none => false
   | some p => p.is_active) &&
  (match findWarehouse s it.warehouse_id with
   | none => false
   | some w => w.is_active)

/-- Modelled from the spec: section 4.2 step 1 — validate the customer
exists and every item references an existing, active Product and
Warehouse; fail with NotFound otherwise. -/
def validateCatalog (s : State) (req : SaleCreate) : Except PosError Unit :=
  if (findCustomer s req.customer_id).isSome then
    if req.items.all (catalogOk s) then Except.ok ()
    else Except.error PosError.NotFound
  else Except.error PosError.NotFound

/-- Modelled from the spec: section 4.2 step 2 — per item, fail with
InvalidQuantity if quantity ≤ 0, InvalidPrice if unit_price ≤ 0. -/
def validateItemValues : List SaleItemCreate → Except PosError Unit
  | [] => Except.ok ()
  | it :: rest =>
    if it.quantity ≤ 0 then Except.error PosError.InvalidQuantity
    else if it.unit_price ≤ 0 then Except.error PosError.InvalidPrice
    else validateItemValues rest

/-- Decrement the stock rows matching a sale item's
(product, warehouse) pair by the item quantity; other rows unchanged. -/
def decPair (it : SaleItemCreate) (s2 : Stock) : Stock :=
  if s2.product_id == it.product_id && s2.warehouse_id == it.warehouse_id then
    { s2 with quantity := s2.quantity - it.quantity }
  else s2

/-- Add `change` to the quantity of the stock rows with id `sid`;
other rows unchanged. -/
def decById (sid change : Int) (s2 : Stock) : Stock :=
  if s2.id == sid then { s2 with quantity := s2.quantity + change } else s2

/-- The DECREASE adjustment record produced when a sale consumes stock
(spec section 4.2 step 6: type=DECREASE,
reason="sale:<transaction_number>"). -/
def saleAdjRecord (uid : Int) (txn : String) (it : SaleItemCreate)
    (st : Stock) : StockAdjustment :=
  { stock_id := st.id, user_id := uid,
    adjustment_type := StockAdjustmentType.decrease,
    quantity_change := -it.quantity,
    previous_quantity := st.quantity,
    new_quantity := st.quantity - it.quantity,
    reason := "sale:" ++ txn }

/-- Modelled from the spec: section 4.2 step 6 — one stock decrease for
one sale item: find the (product, warehouse) stock row, fail with
InsufficientStock when the decrement would drive quantity negative
(or when no stock row exists, so available quantity is 0), otherwise
decrement the row and append the DECREASE adjustment record. -/
def applySaleAdjust (uid : Int) (txn : String) (it : SaleItemCreate)
    (stocks : List Stock) (adjs : List StockAdjustment) :
    Except PosError (List Stock × List StockAdjustment) :=
  match findStockPair stocks it.product_id it.warehouse_id with
  | none => Except.error PosError.InsufficientStock
  | some st =>
    if st.quantity - it.quantity < 0 then
      Except.error PosError.InsufficientStock
    else
      Except.ok (stocks.map (decPair it), adjs ++ [saleAdjRecord uid txn it st])

/-- Modelled from the spec: section 4.2 step 6 — the stock decreases of
all items in order; the first failing item short-circuits. -/
def applyAllAdjusts (uid : Int) (txn : String) :
    List SaleItemCreate → List Stock → List StockAdjustment →
    Except PosError (List Stock × List StockAdjustment)
  | [], stocks, adjs => Except.ok (stocks, adjs)
  | it :: rest, stocks, adjs =>
    match applySaleAdjust uid txn it stocks adjs with
    | Except.error e => Except.error e
    | Except.ok (stocks2, adjs2) => applyAllAdjusts uid txn rest stocks2 adjs2

/-- Modelled from the spec: section 4.2 step 7 — the persisted SaleItem
rows of a request, carrying the line amounts of step 2. -/
def mkSaleItems (sid : Int) (items : List SaleItemCreate) : List SaleItem :=
  items.map (fun it =>
    { sale_id := sid, product_id := it.product_id,
      warehouse_id := it.warehouse_id, quantity := it.quantity,
      unit_price := it.unit_price,
      discount_percentage := it.discount_percentage,
      discount_amount := lineDiscount it,
      total_amount := lineTotal it })

/-- Modelled from the spec: section 4.2 steps 3-4 — the Sale header of
a request: `subtotal = sum(line_total)`,
`discount_amount = round(subtotal * discount_percentage / 100, 2)`,
`taxable = subtotal - discount_amount`,
`tax_amount = round(taxable * tax_percentage / 100, 2)`,
`total_amount = taxable + tax_amount`. -/
def mkSale (uid : Int) (txn : String) (req : SaleCreate) : Sale :=
  let subtotal := subtotalOf req.items
  let discount_amount := roundHalfUp2 (subtotal * req.discount_percentage)
  let taxable := subtotal - discount_amount
  let tax_amount := roundHalfUp2 (taxable * req.tax_percentage)
  { transaction_number := txn, customer_id := req.customer_id,
    user_id := uid, subtotal := subtotal,
    discount_percentage := req.discount_percentage,
    discount_amount := discount_amount,
    tax_percentage := req.tax_percentage,
    tax_amount := tax_amount,
    total_amount := taxable + tax_amount,
    payment_method := req.payment_method,
    notes := req.notes }

/-- Modelled from the spec: section 4.2 — post_sale.  Validates catalog
references (step 1) and item values (step 2), computes the transaction
totals (steps 3-4), applies every stock decrease (step 6) and persists
the Sale header and SaleItems together (step 7).  Any failure returns
the error with no new state, which models the all-or-nothing
transaction boundary of section 5.  The unique transaction number of
step 5 is supplied by the caller. -/
def postSale (s : State) (uid : Int) (txn : String) (req : SaleCreate) :
    Except PosError (State × Sale) :=
  match validateCatalog s req with
  | Except.error e => Except.error e
  | Except.ok _ =>
    match validateItemValues req.items with
    | Except.error e => Except.error e
    | Except.ok _ =>
      match applyAllAdjusts uid txn req.items s.stocks s.adjustments with
      | Except.error e => Except.error e
      | Except.ok (stocks2, adjs2) =>
        Except.ok
          ({ s with stocks := stocks2, adjustments := adjs2,
                    sales := s.sales ++ [mkSale uid txn req],
                    sale_items := s.sale_items ++
                      mkSaleItems ((s.sales.length : Int) + 1) req.items },
           mkSale uid txn req)

/-- The state after a post_sale request: the new state on success, the
unchanged prior state on failure (rollback, spec section 5). -/
def postSaleState (s : State) (uid : Int) (txn : String) (req : SaleCreate) : State :=
  match postSale s uid txn req with
  | Except.error _ => s
  | Except.ok (s2, _) => s2

/-- Modelled from the spec: section 4.1 — Stock Ledger
adjust(stock_id, quantity_change, type, reason, actor).  Reads the
current quantity, computes new_quantity = previous_quantity +
quantity_change, fails with InsufficientStock when new_quantity < 0
before any mutation, and on success persists the updated Stock and the
StockAdjustment record together. -/
def adjust (s : State) (sid : Int) (change : Int)
    (ty : StockAdjustmentType) (reason : String) (uid : Int) :
    Except PosError (State × Stock × StockAdjustment) :=
  match s.stocks.find? (fun st => st.id == sid) with
  | none => Except.error PosError.NotFound
  | some st =>
    if st.quantity + change < 0 then
      Except.error PosError.InsufficientStock
    else
      let st2 : Stock := { st with quantity := st.quantity + change }
      let adj : StockAdjustment :=
        { stock_id := st.id, user_id := uid, adjustment_type := ty,
          quantity_change := change, previous_quantity := st.quantity,
          new_quantity := st.quantity + change, reason := reason }
      Except.ok
        ({ s with stocks := s.stocks.map (decById sid change),
                  adjustments := s.adjustments ++ [adj] },
         st2, adj)

/-- The state after a Stock Ledger adjust call: the new state on
success, the unchanged prior state on failure (spec section 4.1). -/
def adjustState (s : State) (sid : Int) (change : Int)
    (ty : StockAdjustmentType) (reason : String) (uid : Int) : State :=
  match adjust s sid change ty reason uid with
  | Except.error _ => s
  | Except.ok (s2, _, _) => s2

/-- A stock id not used by any existing row. -/
def freshStockId (stocks : List Stock) : Int :=
  (stocks.foldr (fun st m => max st.id m) 0) + 1

/-- Modelled from the spec: section 4.1 — Stock Ledger
get_or_create(product_id, warehouse_id): returns the existing stock row
of the pair, or creates one with quantity 0. -/
def getOrCreate (s : State) (pid wid : Int) : State × Stock :=
  match findStockPair s.stocks pid wid with
  | some st => (s, st)
  | none =>
    let st : Stock := { id := freshStockId s.stocks, product_id := pid,
                        warehouse_id := wid, quantity := 0, minimum_stock := 0 }
    ({ s with stocks := s.stocks ++ [st] }, st)

/-- An initial state: master data with no stock rows, sales or
adjustments yet. -/
def initState (cs : List Customer) (ps : List Product) (ws : List Warehouse) : State :=
  { customers := cs, products := ps, warehouses := ws,
    stocks := [], sales := [], sale_items := [], adjustments := [] }

/-- States reachable from an initial state through the spec's
stock-mutating operations: Stock Ledger get_or_create and adjust, and
Sale Poster post_sale (spec sections 4.1 and 4.2). -/
inductive Reachable : State → Prop where
  | init (cs : List Customer) (ps : List Product) (ws : List Warehouse) :
      Reachable (initState cs ps ws)
  | step_getOrCreate {s : State} (pid wid : Int) :
      Reachable s → Reachable (getOrCreate s pid wid).1
  | step_adjust {s : State} (sid change : Int) (ty : StockAdjustmentType)
      (reason : String) (uid : Int) :
      Reachable s → Reachable (adjustState s sid change ty reason uid)
  | step_postSale {s : State} (uid : Int) (txn : String) (req : SaleCreate) :
      Reachable s → Reachable (postSaleState s uid txn req)

/-- Two distinct stock rows never share a (product, warehouse) pair. -/
def DistinctPair (a b : Stock) : Prop :=
  a.product_id ≠ b.product_id ∨ a.warehouse_id ≠ b.warehouse_id

/-- The stock invariant of the spec, section 3: quantity never negative,
and at most one stock row per (product, warehouse) pair. -/
def StockInv (s : State) : Prop :=
  (∀ st ∈ s.stocks, 0 ≤ st.quantity) ∧ s.stocks.Pairwise DistinctPair

/-- The adjustment-record invariant of the spec, section 3:
previous_quantity + quantity_change = new_quantity for every record. -/
def AdjInv (s : State) : Prop :=
  ∀ a ∈ s.adjustments, a.previous_quantity + a.quantity_change = a.new_quantity

/-- The invariants maintained together through every reachable state:
the stock invariant, distinct stock ids, and the adjustment-record
invariant. -/
def FullInv (s : State) : Prop :=
  StockInv s ∧ s.stocks.Pairwise (fun a b => a.id ≠ b.id) ∧ AdjInv s

/-- Did the sale posting succeed? -/
def saleOk (r : Except PosError (State × Sale)) : Bool :=
  match r with
  | Except.ok _ => true
  | Except.error _ => false

/-- The example state of spec section 8: one customer, one active
product, one active warehouse, Stock(product=1, warehouse=1,
quantity=10). -/
def exState : State :=
  { customers := [{ id := 1 }],
    products := [{ id := 1, name := "tile", sku := "SKU1" }],
    warehouses := [{ id := 1 }],
    stocks := [{ id := 1, product_id := 1, warehouse_id := 1, quantity := 10 }],
    sales := [], sale_items := [], adjustments := [] }

/-- The example sale request of spec section 8: one item, quantity 3 at
100.00 with item discount 0; sale discount 10.00 percent, tax 5.00
percent. -/
def exReq : SaleCreate :=
  { customer_id := 1,
    items := [{ product_id := 1, warehouse_id := 1, quantity := 3,
                unit_price := 10000 }],
    discount_percentage := 1000, tax_percentage := 500 }

/-- The stock row of (product 1, warehouse 1) with a given quantity. -/
def singleRow (q : Int) : Stock :=
  { id := 1, product_id := 1, warehouse_id := 1, quantity := q }

/-- A request line of quantity `d` at price `p` against product 1 in
warehouse 1 with no item discount. -/
def singleItem (d p : Int) : SaleItemCreate :=
  { product_id := 1, warehouse_id := 1, quantity := d, unit_price := p }

/-- A sale request with a single line of quantity `d` at price `p`
against product 1 in warehouse 1. -/
def oneItemReq (d p : Int) : SaleCreate :=
  { customer_id := 1, items := [singleItem d p] }

/-- The example state with the stock quantity left parametric. -/
def pairState (q0 : Int) : State :=
  { customers := [{ id := 1 }],
    products := [{ id := 1, name := "tile", sku := "SKU1" }],
    warehouses := [{ id := 1 }],
    stocks := [singleRow q0],
    sales := [], sale_items := [], adjustments := [] }

/-- The state reached by posting the spec section 8 example sale. -/
def exPostedState : State := postSaleState exState 1 "TRX-1" exReq

/-- The sale header produced by the spec section 8 example sale. -/
def exPostedSale : Sale := mkSale 1 "TRX-1" exReq

/-- The SaleItem row created by the spec section 8 example sale. -/
def exSaleItem : SaleItem :=
  { sale_id := 1, product_id := 1, warehouse_id := 1, quantity := 3,
    unit_price := 10000, discount_percentage := 0, discount_amount := 0,
    total_amount := 30000 }

/-- The example state with no customers, for the NotFound path. -/
def exStateNoCustomer : State := { exState with customers := [] }

/-- A ProductCreate with negative prices; the schema accepts it. -/
def badProductCreate : ProductCreate :=
  { name := "tile", sku := "SKU1", purchase_price := -100,
    selling_price := -100 }

/-- A Sale built giving only the fields that have no default, so every
defaulted column keeps its source default. -/
def defaultSale (txn : String) (cid uid : Int) : Sale :=
  { transaction_number := txn, customer_id := cid, user_id := uid }

theorem decPair_product_id (it : SaleItemCreate) (s2 : Stock) :
    (decPair it s2).product_id = s2.product_id := by
  unfold decPair; split <;> rfl

theorem decPair_warehouse_id (it : SaleItemCreate) (s2 : Stock) :
    (decPair it s2).warehouse_id = s2.warehouse_id := by
  unfold decPair; split <;> rfl

theorem decPair_id (it : SaleItemCreate) (s2 : Stock) :
    (decPair it s2).id = s2.id := by
  unfold decPair; split <;> rfl

theorem decPair_quantity_le (it : SaleItemCreate) (h : 0 ≤ it.quantity)
    (s2 : Stock) : (decPair it s2).quantity ≤ s2.quantity := by
  unfold decPair; split
  · show s2.quantity - it.quantity ≤ s2.quantity
    omega
  · exact le_refl _

theorem decById_product_id (sid change : Int) (s2 : Stock) :
    (decById sid change s2).product_id = s2.product_id := by
  unfold decById; split <;> rfl

theorem decById_warehouse_id (sid change : Int) (s2 : Stock) :
    (decById sid change s2).warehouse_id = s2.warehouse_id := by
  unfold decById; split <;> rfl

theorem decById_id (sid change : Int) (s2 : Stock) :
    (decById sid change s2).id = s2.id := by
  unfold decById; split <;> rfl

theorem findStockPair_map_decPair (it : SaleItemCreate) (stocks : List Stock)
    (pid wid : Int) :
    findStockPair (stocks.map (decPair it)) pid wid
      = (findStockPair stocks pid wid).map (decPair it) := by
  unfold findStockPair
  rw [List.find?_map]
  congr 2
  funext st
  show ((decPair it st).product_id == pid && (decPair it st).warehouse_id == wid)
      = (st.product_id == pid && st.warehouse_id == wid)
  rw [decPair_product_id, decPair_warehouse_id]

theorem availableQty_map_decPair_le (it : SaleItemCreate) (h : 0 ≤ it.quantity)
    (stocks : List Stock) (pid wid : Int) :
    availableQty (stocks.map (decPair it)) pid wid ≤ availableQty stocks pid wid := by
  unfold availableQty
  rw [findStockPair_map_decPair]
  cases hf : findStockPair stocks pid wid with
  | none => exact le_refl 0
  | some st => exact decPair_quantity_le it h st

theorem applySaleAdjust_ok (uid : Int) (txn : String) (it : SaleItemCreate)
    (stocks : List Stock) (adjs : List StockAdjustment)
    (stocks2 : List Stock) (adjs2 : List StockAdjustment)
    (h : applySaleAdjust uid txn it stocks adjs = Except.ok (stocks2, adjs2)) :
    ∃ st, findStockPair stocks it.product_id it.warehouse_id = some st ∧
      0 ≤ st.quantity - it.quantity ∧
      stocks2 = stocks.map (decPair it) ∧
      adjs2 = adjs ++ [saleAdjRecord uid txn it st] := by
  unfold applySaleAdjust at h
  split at h
  · exact absurd h (by simp)
  · rename_i st hst
    split at h
    · exact absurd h (by simp)
    · rename_i hq
      simp only [Except.ok.injEq, Prod.mk.injEq] at h
      exact ⟨st, hst, by omega, h.1.symm, h.2.symm⟩

theorem applySaleAdjust_error_eq (uid : Int) (txn : String) (it : SaleItemCreate)
    (stocks : List Stock) (adjs : List StockAdjustment) (e : PosError)
    (h : applySaleAdjust uid txn it stocks adjs = Except.error e) :
    e = PosError.InsufficientStock := by
  unfold applySaleAdjust at h
  split at h
  · simp only [Except.error.injEq] at h
    exact h.symm
  · split at h
    · simp only [Except.error.injEq] at h
      exact h.symm
    · exact absurd h (by simp)

theorem validateItemValues_ok_pos (items : List SaleItemCreate)
    (h : validateItemValues items = Except.ok ()) :
    ∀ it ∈ items, 0 < it.quantity ∧ 0 < it.unit_price := by
  induction items with
  | nil => intro it hit; exact absurd hit (List.not_mem_nil it)
  | cons a rest ih =>
    intro it hit
    unfold validateItemValues at h
    split at h
    · exact absurd h (by simp)
    · split at h
      · exact absurd h (by simp)
      · rename_i hq hp
        rcases List.mem_cons.mp hit with rfl | hmem
        · exact ⟨by omega, by omega⟩
        · exact ih h it hmem

theorem validateItemValues_quantity (items : List SaleItemCreate)
    (hex : ∃ it ∈ items, it.quantity ≤ 0)
    (hp : ∀ it ∈ items, 0 < it.unit_price) :
    validateItemValues items = Except.error PosError.InvalidQuantity := by
  induction items with
  | nil =>
    obtain ⟨it, hmem, _⟩ := hex
    exact absurd hmem (List.not_mem_nil it)
  | cons a rest ih =>
    unfold validateItemValues
    by_cases hq : a.quantity ≤ 0
    · rw [if_pos hq]
    · rw [if_neg hq,
          if_neg (by have := hp a (List.mem_cons_self a rest); omega)]
      apply ih
      · obtain ⟨it, hmem, hle⟩ := hex
        rcases List.mem_cons.mp hmem with rfl | h2
        · exact absurd hle hq
        · exact ⟨it, h2, hle⟩
      · intro it h2
        exact hp it (List.mem_cons_of_mem _ h2)

theorem validateItemValues_price (items : List SaleItemCreate)
    (hq : ∀ it ∈ items, 0 < it.quantity)
    (hex : ∃ it ∈ items, it.unit_price ≤ 0) :
    validateItemValues items = Except.error PosError.InvalidPrice := by
  induction items with
  | nil =>
    obtain ⟨it, hmem, _⟩ := hex
    exact absurd hmem (List.not_mem_nil it)
  | cons a rest ih =>
    unfold validateItemValues
    rw [if_neg (by have := hq a (List.mem_cons_self a rest); omega)]
    by_cases hpa : a.unit_price ≤ 0
    · rw [if_pos hpa]
    · rw [if_neg hpa]
      apply ih
      · intro it h2
        exact hq it (List.mem_cons_of_mem _ h2)
      · obtain ⟨it, hmem, hle⟩ := hex
        rcases List.mem_cons.mp hmem with rfl | h2
        · exact absurd hle hpa
        · exact ⟨it, h2, hle⟩

theorem postSale_ok_shape (s : State) (uid : Int) (txn : String)
    (req : SaleCreate) (s2 : State) (sale : Sale)
    (h : postSale s uid txn req = Except.ok (s2, sale)) :
    sale = mkSale uid txn req ∧
    validateCatalog s req = Except.ok () ∧
    validateItemValues req.items = Except.ok () ∧
    ∃ stocks2 adjs2,
      applyAllAdjusts uid txn req.items s.stocks s.adjustments
        = Except.ok (stocks2, adjs2) ∧
      s2 = { s with stocks := stocks2, adjustments := adjs2,
                    sales := s.sales ++ [mkSale uid txn req],
                    sale_items := s.sale_items ++
                      mkSaleItems ((s.sales.length : Int) + 1) req.items } := by
  unfold postSale at h
  cases h1 : validateCatalog s req with
  | error e => rw [h1] at h; exact absurd h (by simp)
  | ok u =>
    cases u
    rw [h1] at h
    cases h2 : validateItemValues req.items with
    | error e => rw [h2] at h; exact absurd h (by simp)
    | ok u =>
      cases u
      rw [h2] at h
      cases h3 : applyAllAdjusts uid txn req.items s.stocks s.adjustments with
      | error e => rw [h3] at h; exact absurd h (by simp)
      | ok pr =>
        obtain ⟨stocks2, adjs2⟩ := pr
        rw [h3] at h
        simp only [Except.ok.injEq, Prod.mk.injEq] at h
        exact ⟨h.2.symm, rfl, rfl, stocks2, adjs2, rfl, h.1.symm⟩

theorem applyAllAdjusts_insufficient (uid : Int) (txn : String) :
    ∀ (items : List SaleItemCreate) (stocks : List Stock)
      (adjs : List StockAdjustment),
      (∀ it ∈ items, 0 < it.quantity) →
      (∃ it0 ∈ items,
        availableQty stocks it0.product_id it0.warehouse_id < it0.quantity) →
      applyAllAdjusts uid txn items stocks adjs
        = Except.error PosError.InsufficientStock := by
  intro items
  induction items with
  | nil =>
    intro stocks adjs _ hex
    obtain ⟨it, hmem, _⟩ := hex
    exact absurd hmem (List.not_mem_nil it)
  | cons it rest ih =>
    intro stocks adjs hpos hex
    simp only [applyAllAdjusts]
    cases hap : applySaleAdjust uid txn it stocks adjs with
    | error e =>
      show Except.error e = Except.error PosError.InsufficientStock
      rw [applySaleAdjust_error_eq uid txn it stocks adjs e hap]
    | ok pr =>
      obtain ⟨stocks2, adjs2⟩ := pr
      show applyAllAdjusts uid txn rest stocks2 adjs2
          = Except.error PosError.InsufficientStock
      obtain ⟨st, hst, hge, hs2, _⟩ :=
        applySaleAdjust_ok uid txn it stocks adjs stocks2 adjs2 hap
      obtain ⟨it0, hmem, hlt⟩ := hex
      rcases List.mem_cons.mp hmem with rfl | hmem2
      · exfalso
        have havail : availableQty stocks it0.product_id it0.warehouse_id
            = st.quantity := by
          unfold availableQty
          rw [hst]
        omega
      · apply ih stocks2 adjs2
        · intro x hx
          exact hpos x (List.mem_cons_of_mem _ hx)
        · refine ⟨it0, hmem2, ?_⟩
          have hmono := availableQty_map_decPair_le it
            (le_of_lt (hpos it (List.mem_cons_self it rest))) stocks
            it0.product_id it0.warehouse_id
          rw [hs2]
          omega

/-- DistinctPair is symmetric. -/
theorem distinctPair_symm : Symmetric DistinctPair :=
  fun _ _ h => h.imp Ne.symm Ne.symm

theorem findStockPair_unique (stocks : List Stock)
    (hpair : stocks.Pairwise DistinctPair) (pid wid : Int) (st : Stock)
    (hst : findStockPair stocks pid wid = some st) (r : Stock)
    (hr : r ∈ stocks)
    (hm : (r.product_id == pid && r.warehouse_id == wid) = true) : r = st := by
  by_cases heq : r = st
  · exact heq
  · exfalso
    have hstm := List.mem_of_find?_eq_some hst
    have hstp := List.find?_some hst
    have hdist := (hpair.forall distinctPair_symm) hr hstm heq
    simp only [Bool.and_eq_true, beq_iff_eq] at hm hstp
    unfold DistinctPair at hdist
    rcases hdist with hd | hd
    · exact hd (hm.1.trans hstp.1.symm)
    · exact hd (hm.2.trans hstp.2.symm)

theorem findById_unique (stocks : List Stock)
    (hid : stocks.Pairwise (fun a b => a.id ≠ b.id)) (sid : Int) (st : Stock)
    (hst : stocks.find? (fun x => x.id == sid) = some st) (r : Stock)
    (hr : r ∈ stocks) (hm : (r.id == sid) = true) : r = st := by
  by_cases heq : r = st
  · exact heq
  · exfalso
    have hstm := List.mem_of_find?_eq_some hst
    have hstp := List.find?_some hst
    have hdist := (hid.forall (fun _ _ h => Ne.symm h)) hr hstm heq
    simp only [beq_iff_eq] at hm hstp
    exact hdist (hm.trans hstp.symm)

theorem applySaleAdjust_inv (uid : Int) (txn : String) (it : SaleItemCreate)
    (stocks : List Stock) (adjs : List StockAdjustment)
    (stocks2 : List Stock) (adjs2 : List StockAdjustment)
    (hq : ∀ st ∈ stocks, 0 ≤ st.quantity)
    (hpair : stocks.Pairwise DistinctPair)
    (hid : stocks.Pairwise (fun a b => a.id ≠ b.id))
    (hadj : ∀ a ∈ adjs, a.previous_quantity + a.quantity_change = a.new_quantity)
    (h : applySaleAdjust uid txn it stocks adjs = Except.ok (stocks2, adjs2)) :
    (∀ st ∈ stocks2, 0 ≤ st.quantity) ∧ stocks2.Pairwise DistinctPair ∧
    stocks2.Pairwise (fun a b => a.id ≠ b.id) ∧
    (∀ a ∈ adjs2, a.previous_quantity + a.quantity_change = a.new_quantity) := by
  obtain ⟨st, hst, hge, hs2, ha2⟩ :=
    applySaleAdjust_ok uid txn it stocks adjs stocks2 adjs2 h
  subst hs2
  subst ha2
  refine ⟨?_, ?_, ?_, ?_⟩
  · intro r hr
    obtain ⟨r0, hr0, rfl⟩ := List.mem_map.mp hr
    unfold decPair
    split
    · rename_i hmatch
      show 0 ≤ r0.quantity - it.quantity
      have hr0st : r0 = st :=
        findStockPair_unique stocks hpair it.product_id it.warehouse_id st hst
          r0 hr0 hmatch
      rw [hr0st]
      omega
    · exact hq r0 hr0
  · refine hpair.map _ (fun a b hab => ?_)
    unfold DistinctPair at hab ⊢
    rw [decPair_product_id, decPair_product_id,
        decPair_warehouse_id, decPair_warehouse_id]
    exact hab
  · refine hid.map _ (fun a b hab => ?_)
    rw [decPair_id, decPair_id]
    exact hab
  · intro a ha
    rcases List.mem_append.mp ha with h1 | h1
    · exact hadj a h1
    · rcases List.mem_singleton.mp h1 with rfl
      show st.quantity + -it.quantity = st.quantity - it.quantity
      omega

theorem applyAllAdjusts_inv (uid : Int) (txn : String) :
    ∀ (items : List SaleItemCreate) (stocks : List Stock)
      (adjs : List StockAdjustment) (stocks2 : List Stock)
      (adjs2 : List StockAdjustment),
      (∀ st ∈ stocks, 0 ≤ st.quantity) →
      stocks.Pairwise DistinctPair →
      stocks.Pairwise (fun a b => a.id ≠ b.id) →
      (∀ a ∈ adjs, a.previous_quantity + a.quantity_change = a.new_quantity) →
      applyAllAdjusts uid txn items stocks adjs = Except.ok (stocks2, adjs2) →
      (∀ st ∈ stocks2, 0 ≤ st.quantity) ∧ stocks2.Pairwise DistinctPair ∧
      stocks2.Pairwise (fun a b => a.id ≠ b.id) ∧
      (∀ a ∈ adjs2, a.previous_quantity + a.quantity_change = a.new_quantity) := by
  intro items
  induction items with
  | nil =>
    intro stocks adjs stocks2 adjs2 hq hpair hid hadj h
    simp only [applyAllAdjusts, Except.ok.injEq, Prod.mk.injEq] at h
    rw [← h.1, ← h.2]
    exact ⟨hq, hpair, hid, hadj⟩
  | cons it rest ih =>
    intro stocks adjs stocks2 adjs2 hq hpair hid hadj h
    simp only [applyAllAdjusts] at h
    split at h
    · exact absurd h (by simp)
    · rename_i stocksM adjsM hap
      have hstep := applySaleAdjust_inv uid txn it stocks adjs stocksM adjsM
        hq hpair hid hadj hap
      exact ih stocksM adjsM stocks2 adjs2 hstep.1 hstep.2.1 hstep.2.2.1
        hstep.2.2.2 h

theorem postSaleState_of_error (s : State) (uid : Int) (txn : String)
    (req : SaleCreate) (e : PosError)
    (h : postSale s uid txn req = Except.error e) :
    postSaleState s uid txn req = s := by
  unfold postSaleState
  rw [h]

theorem adjust_ok (s : State) (sid change : Int) (ty : StockAdjustmentType)
    (reason : String) (uid : Int) (s2 : State) (st2 : Stock)
    (adj : StockAdjustment)
    (h : adjust s sid change ty reason uid = Except.ok (s2, st2, adj)) :
    ∃ st, s.stocks.find? (fun x => x.id == sid) = some st ∧
      0 ≤ st.quantity + change ∧
      st2 = { st with quantity := st.quantity + change } ∧
      adj = { stock_id := st.id, user_id := uid, adjustment_type := ty,
              quantity_change := change, previous_quantity := st.quantity,
              new_quantity := st.quantity + change, reason := reason } ∧
      s2 = { s with stocks := s.stocks.map (decById sid change),
                    adjustments := s.adjustments ++ [adj] } := by
  simp only [adjust] at h
  split at h
  · exact absurd h (by simp)
  · rename_i st hst
    split at h
    · exact absurd h (by simp)
    · rename_i hq
      simp only [Except.ok.injEq, Prod.mk.injEq] at h
      refine ⟨st, hst, by omega, h.2.1.symm, h.2.2.symm, ?_⟩
      rw [← h.1, ← h.2.2]

theorem adjust_error_cases (s : State) (sid change : Int)
    (ty : StockAdjustmentType) (reason : String) (uid : Int) (e : PosError)
    (h : adjust s sid change ty reason uid = Except.error e) :
    e = PosError.NotFound ∨ e = PosError.InsufficientStock := by
  simp only [adjust] at h
  split at h
  · simp only [Except.error.injEq] at h
    exact Or.inl h.symm
  · split at h
    · simp only [Except.error.injEq] at h
      exact Or.inr h.symm
    · exact absurd h (by simp)

theorem stockId_le_fold (stocks : List Stock) :
    ∀ st ∈ stocks, st.id ≤ stocks.foldr (fun st m => max st.id m) 0 := by
  induction stocks with
  | nil => intro st hst; exact absurd hst (List.not_mem_nil st)
  | cons a rest ih =>
    intro st hst
    rcases List.mem_cons.mp hst with rfl | hmem
    · exact le_max_left _ _
    · exact le_trans (ih st hmem) (le_max_right _ _)

theorem stockId_lt_fresh (stocks : List Stock) :
    ∀ st ∈ stocks, st.id < freshStockId stocks := by
  intro st hst
  unfold freshStockId
  have := stockId_le_fold stocks st hst
  omega

theorem getOrCreate_inv (s : State) (pid wid : Int) (hinv : FullInv s) :
    FullInv (getOrCreate s pid wid).1 := by
  obtain ⟨⟨hq, hpair⟩, hid, hadj⟩ := hinv
  unfold getOrCreate
  cases hf : findStockPair s.stocks pid wid with
  | some st => exact ⟨⟨hq, hpair⟩, hid, hadj⟩
  | none =>
    refine ⟨⟨?_, ?_⟩, ?_, hadj⟩
    · intro r hr
      rcases List.mem_append.mp hr with h1 | h1
      · exact hq r h1
      · rcases List.mem_singleton.mp h1 with rfl
        exact le_refl 0
    · rw [List.pairwise_append]
      refine ⟨hpair, List.pairwise_singleton _ _, ?_⟩
      intro a ha b hb
      rcases List.mem_singleton.mp hb with rfl
      have hnf := List.find?_eq_none.mp hf a ha
      simp only [Bool.and_eq_true, beq_iff_eq, not_and] at hnf
      show a.product_id ≠ pid ∨ a.warehouse_id ≠ wid
      by_cases hpp : a.product_id = pid
      · exact Or.inr (hnf hpp)
      · exact Or.inl hpp
    · rw [List.pairwise_append]
      refine ⟨hid, List.pairwise_singleton _ _, ?_⟩
      intro a ha b hb
      rcases List.mem_singleton.mp hb with rfl
      show a.id ≠ freshStockId s.stocks
      have := stockId_lt_fresh s.stocks a ha
      omega

theorem adjustState_inv (s : State) (sid change : Int)
    (ty : StockAdjustmentType) (reason : String) (uid : Int)
    (hinv : FullInv s) : FullInv (adjustState s sid change ty reason uid) := by
  obtain ⟨⟨hq, hpair⟩, hid, hadj⟩ := hinv
  unfold adjustState
  cases hres : adjust s sid change ty reason uid with
  | error e => exact ⟨⟨hq, hpair⟩, hid, hadj⟩
  | ok pr =>
    obtain ⟨s2, st2, adj⟩ := pr
    obtain ⟨st, hst, hge, _, hadjval, hs2⟩ :=
      adjust_ok s sid change ty reason uid s2 st2 adj hres
    subst hs2
    refine ⟨⟨?_, ?_⟩, ?_, ?_⟩
    · intro r hr
      obtain ⟨r0, hr0, rfl⟩ := List.mem_map.mp hr
      unfold decById
      split
      · rename_i hmatch
        show 0 ≤ r0.quantity + change
        have hr0st : r0 = st := findById_unique s.stocks hid sid st hst r0 hr0 hmatch
        rw [hr0st]
        omega
      · exact hq r0 hr0
    · refine hpair.map _ (fun a b hab => ?_)
      unfold DistinctPair at hab ⊢
      rw [decById_product_id, decById_product_id,
          decById_warehouse_id, decById_warehouse_id]
      exact hab
    · refine hid.map _ (fun a b hab => ?_)
      rw [decById_id, decById_id]
      exact hab
    · intro a ha
      rcases List.mem_append.mp ha with h1 | h1
      · exact hadj a h1
      · rcases List.mem_singleton.mp h1 with rfl
        rw [hadjval]

theorem postSaleState_inv (s : State) (uid : Int) (txn : String)
    (req : SaleCreate) (hinv : FullInv s) :
    FullInv (postSaleState s uid txn req) := by
  obtain ⟨⟨hq, hpair⟩, hid, hadj⟩ := hinv
  cases hps : postSale s uid txn req with
  | error e =>
    rw [postSaleState_of_error s uid txn req e hps]
    exact ⟨⟨hq, hpair⟩, hid, hadj⟩
  | ok pr =>
    obtain ⟨s2, sale⟩ := pr
    obtain ⟨_, _, _, stocks2, adjs2, hfold, hs2⟩ :=
      postSale_ok_shape s uid txn req s2 sale hps
    have hstep := applyAllAdjusts_inv uid txn req.items s.stocks s.adjustments
      stocks2 adjs2 hq hpair hid hadj hfold
    unfold postSaleState
    rw [hps, hs2]
    exact ⟨⟨hstep.1, hstep.2.1⟩, hstep.2.2.1, hstep.2.2.2⟩

/-- Every reachable state satisfies all maintained invariants together. -/
theorem reachable_fullInv {s : State} (h : Reachable s) : FullInv s := by
  induction h with
  | init cs ps ws =>
    exact ⟨⟨fun st hst => absurd hst (List.not_mem_nil st), List.Pairwise.nil⟩,
           List.Pairwise.nil, fun a ha => absurd ha (List.not_mem_nil a)⟩
  | step_getOrCreate pid wid _ ih => exact getOrCreate_inv _ pid wid ih
  | step_adjust sid change ty reason uid _ ih =>
    exact adjustState_inv _ sid change ty reason uid ih
  | step_postSale uid txn req _ ih => exact postSaleState_inv _ uid txn req ih

theorem availableQty_pairState (q : Int) :
    availableQty (pairState q).stocks 1 1 = q := rfl

theorem postSaleState_of_ok (s : State) (uid : Int) (txn : String)
    (req : SaleCreate) (s2 : State) (sale : Sale)
    (h : postSale s uid txn req = Except.ok (s2, sale)) :
    postSaleState s uid txn req = s2 := by
  unfold postSaleState
  rw [h]

theorem validateCatalog_congr (s t : State) (req : SaleCreate)
    (hc : s.customers = t.customers) (hp : s.products = t.products)
    (hw : s.warehouses = t.warehouses) :
    validateCatalog s req = validateCatalog t req := by
  unfold validateCatalog
  have h1 : findCustomer s req.customer_id = findCustomer t req.customer_id := by
    unfold findCustomer
    rw [hc]
  have h2 : catalogOk s = catalogOk t := by
    funext it
    unfold catalogOk findProduct findWarehouse
    rw [hp, hw]
  rw [h1, h2]

theorem availableQty_singleRow (q : Int) : availableQty [singleRow q] 1 1 = q := rfl

theorem applySaleAdjust_single (uid : Int) (txn : String) (d p q : Int)
    (adjs : List StockAdjustment) :
    applySaleAdjust uid txn (singleItem d p) [singleRow q] adjs
      = if q - d < 0 then Except.error PosError.InsufficientStock
        else Except.ok ([singleRow (q - d)],
          adjs ++ [saleAdjRecord uid txn (singleItem d p) (singleRow q)]) := rfl

theorem applyAllAdjusts_single (uid : Int) (txn : String) (d p q : Int)
    (adjs : List StockAdjustment) :
    applyAllAdjusts uid txn [singleItem d p] [singleRow q] adjs
      = if q - d < 0 then Except.error PosError.InsufficientStock
        else Except.ok ([singleRow (q - d)],
          adjs ++ [saleAdjRecord uid txn (singleItem d p) (singleRow q)]) := by
  simp only [applyAllAdjusts]
  rw [applySaleAdjust_single]
  by_cases hc : q - d < 0
  · rw [if_pos hc]
  · rw [if_neg hc]

theorem validateItemValues_single (d p : Int) (hd : 0 < d) (hp2 : 0 < p) :
    validateItemValues [singleItem d p] = Except.ok () := by
  simp only [validateItemValues]
  rw [if_neg (show ¬((singleItem d p).quantity ≤ 0) from by
        show ¬(d ≤ 0); omega),
      if_neg (show ¬((singleItem d p).unit_price ≤ 0) from by
        show ¬(p ≤ 0); omega)]

theorem postSale_single (s : State) (uid : Int) (txn : String) (d p q : Int)
    (hv : validateCatalog s (oneItemReq d p) = Except.ok ())
    (hst : s.stocks = [singleRow q]) (hd : 0 < d) (hp2 : 0 < p) :
    (q < d →
      postSale s uid txn (oneItemReq d p) = Except.error PosError.InsufficientStock ∧
      postSaleState s uid txn (oneItemReq d p) = s) ∧
    (d ≤ q →
      ∃ s2 sale, postSale s uid txn (oneItemReq d p) = Except.ok (s2, sale) ∧
        postSaleState s uid txn (oneItemReq d p) = s2 ∧
        s2.stocks = [singleRow (q - d)] ∧
        s2.customers = s.customers ∧ s2.products = s.products ∧
        s2.warehouses = s.warehouses) := by
  have hval : validateItemValues (oneItemReq d p).items = Except.ok () :=
    validateItemValues_single d p hd hp2
  constructor
  · intro hlt
    have hfold : applyAllAdjusts uid txn (oneItemReq d p).items s.stocks
        s.adjustments = Except.error PosError.InsufficientStock := by
      rw [hst]
      show applyAllAdjusts uid txn [singleItem d p] [singleRow q] s.adjustments = _
      rw [applyAllAdjusts_single, if_pos (by omega)]
    have herr : postSale s uid txn (oneItemReq d p)
        = Except.error PosError.InsufficientStock := by
      unfold postSale
      rw [hv, hval, hfold]
    exact ⟨herr, postSaleState_of_error s uid txn (oneItemReq d p) _ herr⟩
  · intro hge
    have hfold : applyAllAdjusts uid txn (oneItemReq d p).items s.stocks
        s.adjustments
        = Except.ok ([singleRow (q - d)], s.adjustments
            ++ [saleAdjRecord uid txn (singleItem d p) (singleRow q)]) := by
      rw [hst]
      show applyAllAdjusts uid txn [singleItem d p] [singleRow q] s.adjustments = _
      rw [applyAllAdjusts_single, if_neg (by omega)]
    have hok : postSale s uid txn (oneItemReq d p)
        = Except.ok
            ({ s with stocks := [singleRow (q - d)],
                      adjustments := s.adjustments
                        ++ [saleAdjRecord uid txn (singleItem d p) (singleRow q)],
                      sales := s.sales ++ [mkSale uid txn (oneItemReq d p)],
                      sale_items := s.sale_items ++
                        mkSaleItems ((s.sales.length : Int) + 1)
                          (oneItemReq d p).items },
             mkSale uid txn (oneItemReq d p)) := by
      unfold postSale
      rw [hv, hval, hfold]
    refine ⟨_, _, hok, postSaleState_of_ok s uid txn (oneItemReq d p) _ _ hok,
      rfl, rfl, rfl, rfl⟩

theorem adjust_eq_found (s : State) (sid change : Int)
    (ty : StockAdjustmentType) (reason : String) (uid : Int) (st : Stock)
    (hfind : s.stocks.find? (fun x => x.id == sid) = some st) :
    adjust s sid change ty reason uid
      = if st.quantity + change < 0 then Except.error PosError.InsufficientStock
        else Except.ok
          ({ s with stocks := s.stocks.map (decById sid change),
                    adjustments := s.adjustments ++
                      [{ stock_id := st.id, user_id := uid,
                         adjustment_type := ty, quantity_change := change,
                         previous_quantity := st.quantity,
                         new_quantity := st.quantity + change,
                         reason := reason }] },
           { st with quantity := st.quantity + change },
           { stock_id := st.id, user_id := uid, adjustment_type := ty,
             quantity_change := change, previous_quantity := st.quantity,
             new_quantity := st.quantity + change, reason := reason }) := by
  simp only [adjust]
  rw [hfind]

/-- C3: in every reachable state, every Stock row has quantity ≥ 0 and
for every (product_id, warehouse_id) pair there is at most one Stock
row; every stock-mutating operation (Stock Ledger get_or_create and
adjust, Sale Poster post_sale) preserves both properties. -/
theorem C3_stock_invariant : ∀ s : State, Reachable s → StockInv s :=
  fun _ h => (reachable_fullInv h).1

theorem C3_stock_invariant_witness :
    StockInv (adjustState (getOrCreate (initState [{ id := 1 }]
      [{ id := 1, name := "tile", sku := "SKU1" }] [{ id := 1 }]) 1 1).1
      1 5 StockAdjustmentType.increase "initial load" 1) :=
  C3_stock_invariant _
    (Reachable.step_adjust 1 5 StockAdjustmentType.increase "initial load" 1
      (Reachable.step_getOrCreate 1 1 (Reachable.init _ _ _)))

/-- C5: every StockAdjustment record ever generated satisfies
previous_quantity + quantity_change = new_quantity; formalised as: the
adjustment records of every reachable state all satisfy the equation. -/
theorem C5_adjustment_record_invariant : ∀ s : State, Reachable s → AdjInv s :=
  fun _ h => (reachable_fullInv h).2.2

theorem C5_adjustment_record_invariant_witness :
    AdjInv (postSaleState (adjustState (getOrCreate (initState [{ id := 1 }]
      [{ id := 1, name := "tile", sku := "SKU1" }] [{ id := 1 }]) 1 1).1
      1 10 StockAdjustmentType.increase "initial load" 1) 1 "TRX-1" exReq) :=
  C5_adjustment_record_invariant _
    (Reachable.step_postSale 1 "TRX-1" exReq
      (Reachable.step_adjust 1 10 StockAdjustmentType.increase "initial load" 1
        (Reachable.step_getOrCreate 1 1 (Reachable.init _ _ _))))

/-- C4: Stock Ledger adjust fails with InsufficientStock exactly when
previous_quantity + quantity_change < 0; on failure the state is
unchanged (the check happens before any persisted mutation); on success
the updated Stock and the new StockAdjustment record are persisted
together, and nothing else changes. -/
theorem C4_adjust_spec :
    ∀ (s : State) (sid change : Int) (ty : StockAdjustmentType)
      (reason : String) (uid : Int) (st : Stock),
      s.stocks.find? (fun x => x.id == sid) = some st →
      ((adjust s sid change ty reason uid
          = Except.error PosError.InsufficientStock)
        ↔ st.quantity + change < 0) ∧
      (st.quantity + change < 0 →
        adjustState s sid change ty reason uid = s) ∧
      (0 ≤ st.quantity + change →
        ∃ s2 adj,
          adjust s sid change ty reason uid
            = Except.ok (s2, { st with quantity := st.quantity + change }, adj) ∧
          adjustState s sid change ty reason uid = s2 ∧
          s2.stocks = s.stocks.map (decById sid change) ∧
          s2.adjustments = s.adjustments ++ [adj] ∧
          s2.sales = s.sales ∧ s2.sale_items = s.sale_items ∧
          adj.previous_quantity = st.quantity ∧
          adj.quantity_change = change ∧
          adj.new_quantity = st.quantity + change) := by
  intro s sid change ty reason uid st hfind
  have hdef := adjust_eq_found s sid change ty reason uid st hfind
  by_cases hc : st.quantity + change < 0
  · rw [if_pos hc] at hdef
    refine ⟨⟨fun _ => hc, fun _ => hdef⟩, fun _ => ?_, fun hge => absurd hc (by omega)⟩
    unfold adjustState
    rw [hdef]
  · rw [if_neg hc] at hdef
    refine ⟨⟨fun herr => ?_, fun hlt => absurd hlt hc⟩,
            fun hlt => absurd hlt hc, fun hge => ?_⟩
    · rw [hdef] at herr
      exact absurd herr (by simp)
    · refine ⟨_, _, hdef, ?_, rfl, rfl, rfl, rfl, rfl, rfl, rfl⟩
      unfold adjustState
      rw [hdef]

theorem C4_adjust_spec_witness :
    ((adjust exState 1 (-3) StockAdjustmentType.decrease "sale" 1
        = Except.error PosError.InsufficientStock)
      ↔ (10 : Int) + (-3) < 0) ∧
    ((10 : Int) + (-3) < 0 →
      adjustState exState 1 (-3) StockAdjustmentType.decrease "sale" 1 = exState) ∧
    (0 ≤ (10 : Int) + (-3) →
      ∃ s2 adj,
        adjust exState 1 (-3) StockAdjustmentType.decrease "sale" 1
          = Except.ok (s2, { singleRow 10 with quantity := (10 : Int) + (-3) }, adj) ∧
        adjustState exState 1 (-3) StockAdjustmentType.decrease "sale" 1 = s2 ∧
        s2.stocks = exState.stocks.map (decById 1 (-3)) ∧
        s2.adjustments = exState.adjustments ++ [adj] ∧
        s2.sales = exState.sales ∧ s2.sale_items = exState.sale_items ∧
        adj.previous_quantity = (10 : Int) ∧
        adj.quantity_change = (-3 : Int) ∧
        adj.new_quantity = (10 : Int) + (-3)) :=
  C4_adjust_spec exState 1 (-3) StockAdjustmentType.decrease "sale" 1
    (singleRow 10) rfl

/-- C1: every successful post_sale computes
discount_amount = round(subtotal * discount_percentage / 100, 2),
tax_amount = round((subtotal - discount_amount) * tax_percentage / 100, 2)
and total_amount = subtotal - discount_amount + tax_amount; on the spec
section 8 example (one item, quantity 3 at 100.00, sale discount 10
percent, tax 5 percent over stock 10) the result is subtotal 300.00,
discount 30.00, tax 13.50, total 283.50, and the remaining stock
quantity is 7. -/
theorem C1_postSale_totals :
    (∀ (s : State) (uid : Int) (txn : String) (req : SaleCreate)
       (s2 : State) (sale : Sale),
      postSale s uid txn req = Except.ok (s2, sale) →
      sale.subtotal = subtotalOf req.items ∧
      sale.discount_amount
        = roundHalfUp2 (sale.subtotal * req.discount_percentage) ∧
      sale.tax_amount
        = roundHalfUp2 ((sale.subtotal - sale.discount_amount)
            * req.tax_percentage) ∧
      sale.total_amount
        = sale.subtotal - sale.discount_amount + sale.tax_amount) ∧
    (postSale exState 1 "TRX-1" exReq).toOption.map
        (fun x => (x.2.subtotal, x.2.discount_amount, x.2.tax_amount,
                   x.2.total_amount))
      = some (30000, 3000, 1350, 28350) ∧
    availableQty (postSaleState exState 1 "TRX-1" exReq).stocks 1 1 = 7 := by
  refine ⟨?_, rfl, rfl⟩
  intro s uid txn req s2 sale h
  have hshape := postSale_ok_shape s uid txn req s2 sale h
  rw [hshape.1]
  exact ⟨rfl, rfl, rfl, rfl⟩

theorem C1_postSale_totals_witness :
    exPostedSale.subtotal = subtotalOf exReq.items ∧
    exPostedSale.discount_amount
      = roundHalfUp2 (exPostedSale.subtotal * exReq.discount_percentage) ∧
    exPostedSale.tax_amount
      = roundHalfUp2 ((exPostedSale.subtotal - exPostedSale.discount_amount)
          * exReq.tax_percentage) ∧
    exPostedSale.total_amount
      = exPostedSale.subtotal - exPostedSale.discount_amount
          + exPostedSale.tax_amount :=
  C1_postSale_totals.1 exState 1 "TRX-1" exReq exPostedState exPostedSale rfl

/-- C2: a sale request whose catalog and item-value validation passes
but in which some item demands more than the available quantity of its
(product, warehouse) stock row fails with InsufficientStock and leaves
the state completely unchanged: no stock decrement and no Sale or
SaleItem row persists. -/
theorem C2_insufficient_stock_rollback :
    ∀ (s : State) (uid : Int) (txn : String) (req : SaleCreate),
      validateCatalog s req = Except.ok () →
      validateItemValues req.items = Except.ok () →
      (∃ it ∈ req.items,
        availableQty s.stocks it.product_id it.warehouse_id < it.quantity) →
      postSale s uid txn req = Except.error PosError.InsufficientStock ∧
      postSaleState s uid txn req = s := by
  intro s uid txn req hv1 hv2 hex
  have hfold := applyAllAdjusts_insufficient uid txn req.items s.stocks
    s.adjustments (fun it hmem => (validateItemValues_ok_pos req.items hv2 it hmem).1)
    hex
  have herr : postSale s uid txn req = Except.error PosError.InsufficientStock := by
    unfold postSale
    rw [hv1, hv2, hfold]
  exact ⟨herr, postSaleState_of_error s uid txn req _ herr⟩

theorem C2_insufficient_stock_rollback_witness :
    validateCatalog exState (oneItemReq 15 10000) = Except.ok () ∧
    validateItemValues (oneItemReq 15 10000).items = Except.ok () ∧
    (∃ it ∈ (oneItemReq 15 10000).items,
      availableQty exState.stocks it.product_id it.warehouse_id < it.quantity) ∧
    postSale exState 1 "TRX-2" (oneItemReq 15 10000)
      = Except.error PosError.InsufficientStock ∧
    postSaleState exState 1 "TRX-2" (oneItemReq 15 10000) = exState := by
  refine ⟨rfl, rfl, ⟨singleItem 15 10000, by decide, by decide⟩, ?_⟩
  exact C2_insufficient_stock_rollback exState 1 "TRX-2" (oneItemReq 15 10000)
    rfl rfl ⟨singleItem 15 10000, by decide, by decide⟩

/-- C6: line amounts are
line_discount_amount = round(quantity * unit_price * discount_percentage
/ 100, 2) and line_total = quantity * unit_price - line_discount_amount,
and every SaleItem persisted by a successful post_sale satisfies
total_amount = quantity * unit_price - discount_amount with
discount_amount being the rounded line discount. -/
theorem C6_line_amounts :
    (∀ it : SaleItemCreate,
      lineDiscount it
        = roundHalfUp2 (it.quantity * it.unit_price * it.discount_percentage) ∧
      lineTotal it = it.quantity * it.unit_price - lineDiscount it) ∧
    (∀ (s : State) (uid : Int) (txn : String) (req : SaleCreate)
       (s2 : State) (sale : Sale),
      postSale s uid txn req = Except.ok (s2, sale) →
      ∀ item ∈ s2.sale_items, item ∈ s.sale_items ∨
        (item.discount_amount
          = roundHalfUp2 (item.quantity * item.unit_price
              * item.discount_percentage) ∧
         item.total_amount
          = item.quantity * item.unit_price - item.discount_amount)) := by
  refine ⟨fun it => ⟨rfl, rfl⟩, ?_⟩
  intro s uid txn req s2 sale h item hitem
  obtain ⟨_, _, _, stocks2, adjs2, _, hs2⟩ := postSale_ok_shape s uid txn req s2 sale h
  rw [hs2] at hitem
  have hitem2 : item ∈ s.sale_items
      ++ mkSaleItems ((s.sales.length : Int) + 1) req.items := hitem
  rcases List.mem_append.mp hitem2 with h1 | h1
  · exact Or.inl h1
  · obtain ⟨it, _, rfl⟩ := List.mem_map.mp h1
    exact Or.inr ⟨rfl, rfl⟩

theorem C6_line_amounts_witness :
    exSaleItem ∈ exState.sale_items ∨
    (exSaleItem.discount_amount
      = roundHalfUp2 (exSaleItem.quantity * exSaleItem.unit_price
          * exSaleItem.discount_percentage) ∧
     exSaleItem.total_amount
      = exSaleItem.quantity * exSaleItem.unit_price
          - exSaleItem.discount_amount) :=
  C6_line_amounts.2 exState 1 "TRX-1" exReq exPostedState exPostedSale rfl
    exSaleItem (by decide)

/-- C7: post_sale fails with NotFound when the customer is missing or
some item references a missing or inactive Product or Warehouse, with
InvalidQuantity when an item quantity is ≤ 0, and with InvalidPrice when
an item unit_price is ≤ 0; each of these validation failures happens
before any write, leaving the state unchanged. -/
theorem C7_validation_errors (s : State) (uid : Int) (txn : String)
    (req : SaleCreate) :
    (findCustomer s req.customer_id = none →
      postSale s uid txn req = Except.error PosError.NotFound ∧
      postSaleState s uid txn req = s) ∧
    ((findCustomer s req.customer_id).isSome = true →
      (∃ it ∈ req.items, catalogOk s it = false) →
      postSale s uid txn req = Except.error PosError.NotFound ∧
      postSaleState s uid txn req = s) ∧
    (validateCatalog s req = Except.ok () →
      (∃ it ∈ req.items, it.quantity ≤ 0) →
      (∀ it ∈ req.items, 0 < it.unit_price) →
      postSale s uid txn req = Except.error PosError.InvalidQuantity ∧
      postSaleState s uid txn req = s) ∧
    (validateCatalog s req = Except.ok () →
      (∀ it ∈ req.items, 0 < it.quantity) →
      (∃ it ∈ req.items, it.unit_price ≤ 0) →
      postSale s uid txn req = Except.error PosError.InvalidPrice ∧
      postSaleState s uid txn req = s) := by
  refine ⟨?_, ?_, ?_, ?_⟩
  · intro hnone
    have hv : validateCatalog s req = Except.error PosError.NotFound := by
      unfold validateCatalog
      rw [hnone]
      rfl
    have herr : postSale s uid txn req = Except.error PosError.NotFound := by
      unfold postSale
      rw [hv]
    exact ⟨herr, postSaleState_of_error s uid txn req _ herr⟩
  · intro hsome hex
    have hall : ¬(req.items.all (catalogOk s) = true) := by
      rw [List.all_eq_true]
      intro hforall
      obtain ⟨it, hmem, hfalse⟩ := hex
      rw [hforall it hmem] at hfalse
      exact absurd hfalse (by simp)
    have hv : validateCatalog s req = Except.error PosError.NotFound := by
      unfold validateCatalog
      rw [if_pos hsome, if_neg hall]
    have herr : postSale s uid txn req = Except.error PosError.NotFound := by
      unfold postSale
      rw [hv]
    exact ⟨herr, postSaleState_of_error s uid txn req _ herr⟩
  · intro hv hex hp
    have hval := validateItemValues_quantity req.items hex hp
    have herr : postSale s uid txn req = Except.error PosError.InvalidQuantity := by
      unfold postSale
      rw [hv, hval]
    exact ⟨herr, postSaleState_of_error s uid txn req _ herr⟩
  · intro hv hq hex
    have hval := validateItemValues_price req.items hq hex
    have herr : postSale s uid txn req = Except.error PosError.InvalidPrice := by
      unfold postSale
      rw [hv, hval]
    exact ⟨herr, postSaleState_of_error s uid txn req _ herr⟩

theorem C7_validation_errors_witness :
    postSale exStateNoCustomer 1 "TRX-3" exReq
      = Except.error PosError.NotFound ∧
    postSaleState exStateNoCustomer 1 "TRX-3" exReq = exStateNoCustomer :=
  (C7_validation_errors exStateNoCustomer 1 "TRX-3" exReq).1 rfl

/-- C8 counterexample: with stock quantity 10 and two serially executed
sales of quantities 15 and 12 on the same (product, warehouse) row,
combined demand 27 exceeds the available 10 yet neither sale succeeds,
so it is not true that exactly one succeeds. -/
theorem C8_exactly_one_counterexample :
    availableQty (pairState 10).stocks 1 1 < 15 + 12 ∧
    saleOk (postSale (pairState 10) 1 "T1" (oneItemReq 15 100)) = false ∧
    saleOk (postSale (postSaleState (pairState 10) 1 "T1" (oneItemReq 15 100))
      1 "T2" (oneItemReq 12 100)) = false :=
  ⟨by decide, rfl, rfl⟩

/-- C8 amended: when two sales against the same (product, warehouse)
stock row are executed serially (the per-row serialization the spec
requires of concurrent sales), both succeed only if their combined
demand is at most the available quantity, the final quantity is never
negative, and the total quantity decremented never exceeds the initial
quantity. -/
theorem C8_serialized_no_lost_update (q0 d1 d2 p : Int)
    (hd1 : 0 < d1) (hd2 : 0 < d2) (hp : 0 < p) (hq0 : 0 ≤ q0) :
    (saleOk (postSale (pairState q0) 1 "T1" (oneItemReq d1 p)) = true →
     saleOk (postSale (postSaleState (pairState q0) 1 "T1" (oneItemReq d1 p))
        1 "T2" (oneItemReq d2 p)) = true →
     d1 + d2 ≤ q0) ∧
    0 ≤ availableQty (postSaleState (postSaleState (pairState q0) 1 "T1"
        (oneItemReq d1 p)) 1 "T2" (oneItemReq d2 p)).stocks 1 1 ∧
    availableQty (pairState q0).stocks 1 1
      - availableQty (postSaleState (postSaleState (pairState q0) 1 "T1"
          (oneItemReq d1 p)) 1 "T2" (oneItemReq d2 p)).stocks 1 1 ≤ q0 := by
  have h1 := postSale_single (pairState q0) 1 "T1" d1 p q0 rfl rfl hd1 hp
  by_cases hc1 : q0 < d1
  · obtain ⟨herr1, hstate1⟩ := h1.1 hc1
    rw [hstate1]
    have h2 := postSale_single (pairState q0) 1 "T2" d2 p q0 rfl rfl hd2 hp
    by_cases hc2 : q0 < d2
    · obtain ⟨herr2, hstate2⟩ := h2.1 hc2
      rw [hstate2]
      refine ⟨fun hok1 _ => ?_, ?_, ?_⟩
      · rw [herr1] at hok1
        exact absurd hok1 (by simp [saleOk])
      · rw [availableQty_pairState]
        omega
      · rw [availableQty_pairState]
        omega
    · obtain ⟨s2, sale2, hok2, hstate2, hstocks2, _, _, _⟩ := h2.2 (by omega)
      rw [hstate2]
      refine ⟨fun hok1 _ => ?_, ?_, ?_⟩
      · rw [herr1] at hok1
        exact absurd hok1 (by simp [saleOk])
      · rw [hstocks2, availableQty_singleRow]
        omega
      · rw [availableQty_pairState, hstocks2, availableQty_singleRow]
        omega
  · obtain ⟨s1, sale1, hok1, hstate1, hstocks1, hcust1, hprod1, hware1⟩ :=
      h1.2 (by omega)
    rw [hstate1]
    have hv2 : validateCatalog s1 (oneItemReq d2 p) = Except.ok () := by
      rw [validateCatalog_congr s1 (pairState q0) (oneItemReq d2 p)
        hcust1 hprod1 hware1]
      rfl
    have h2 := postSale_single s1 1 "T2" d2 p (q0 - d1) hv2 hstocks1 hd2 hp
    by_cases hc2 : q0 - d1 < d2
    · obtain ⟨herr2, hstate2⟩ := h2.1 hc2
      rw [hstate2]
      refine ⟨fun _ hok2 => ?_, ?_, ?_⟩
      · rw [herr2] at hok2
        exact absurd hok2 (by simp [saleOk])
      · rw [hstocks1, availableQty_singleRow]
        omega
      · rw [availableQty_pairState, hstocks1, availableQty_singleRow]
        omega
    · obtain ⟨s2, sale2, hok2, hstate2, hstocks2, _, _, _⟩ := h2.2 (by omega)
      rw [hstate2]
      refine ⟨fun _ _ => by omega, ?_, ?_⟩
      · rw [hstocks2, availableQty_singleRow]
        omega
      · rw [availableQty_pairState, hstocks2, availableQty_singleRow]
        omega

theorem C8_serialized_no_lost_update_witness :
    (saleOk (postSale (pairState 10) 1 "T1" (oneItemReq 7 100)) = true →
     saleOk (postSale (postSaleState (pairState 10) 1 "T1" (oneItemReq 7 100))
        1 "T2" (oneItemReq 3 100)) = true →
     (7 : Int) + 3 ≤ 10) ∧
    0 ≤ availableQty (postSaleState (postSaleState (pairState 10) 1 "T1"
        (oneItemReq 7 100)) 1 "T2" (oneItemReq 3 100)).stocks 1 1 ∧
    availableQty (pairState 10).stocks 1 1
      - availableQty (postSaleState (postSaleState (pairState 10) 1 "T1"
          (oneItemReq 7 100)) 1 "T2" (oneItemReq 3 100)).stocks 1 1 ≤ 10 :=
  C8_serialized_no_lost_update 10 7 3 100 (by decide) (by decide) (by decide)
    (by decide)

/-- C9 counterexample: the ProductCreate schema embeds only the string
length constraints of the source field declarations; it accepts a
request with negative purchase and selling prices, so it is not true
that every accepted Product has non-negative prices. -/
theorem C9_nonneg_counterexample :
    ¬ (∀ pc : ProductCreate, productCreateValid pc = true →
        0 ≤ pc.purchase_price ∧ 0 ≤ pc.selling_price) := by
  intro h
  have hneg := (h badProductCreate (by decide)).1
  exact absurd hneg (by decide)

/-- C9 amended: Product prices are 2-decimal fixed point (embedded as
integer cents), but the schemas place no sign constraint on them: a
ProductCreate with any integer purchase and selling price, including
negative ones, passes the model validation. -/
theorem C9_price_schema_unbounded :
    ∀ pp sp : Int,
      productCreateValid
        { name := "tile", description := none, sku := "SKU1",
          category_id := none, purchase_price := pp, selling_price := sp,
          unit := "pcs" } = true :=
  fun _ _ => rfl

/-- C10: a Sale constructed without explicit payment fields has
payment_method cash and payment_status the string "completed", and the
model constrains payment_status only to at most 20 characters — any
such string is accepted, not just a closed set of status values. -/
theorem C10_payment_defaults :
    (∀ (txn : String) (cid uid : Int),
      (defaultSale txn cid uid).payment_method = PaymentMethod.cash ∧
      (defaultSale txn cid uid).payment_status = "completed") ∧
    (∀ st : String, st.length ≤ 20 →
      ∀ (txn : String) (cid uid : Int), txn.length ≤ 20 →
        saleStringsValid { defaultSale txn cid uid with payment_status := st }
          = true) := by
  refine ⟨fun txn cid uid => ⟨rfl, rfl⟩, ?_⟩
  intro st hst txn cid uid htxn
  show (decide (txn.length ≤ 20) && decide (st.length ≤ 20)) = true
  rw [Bool.and_eq_true]
  exact ⟨decide_eq_true htxn, decide_eq_true hst⟩

theorem C10_payment_defaults_witness :
    ((defaultSale "TRX-9" 1 1).payment_method = PaymentMethod.cash ∧
     (defaultSale "TRX-9" 1 1).payment_status = "completed") ∧
    saleStringsValid
      { defaultSale "TRX-9" 1 1 with payment_status := "partially-paid" }
      = true :=
  ⟨C10_payment_defaults.1 "TRX-9" 1 1,
   C10_payment_defaults.2 "partially-paid" (by decide) "TRX-9" 1 1 (by decide)⟩

end KeramikPos
